import Mathlib

/-!
Verification of the observation-scheduling core of `telescope_optimizer.py`
(pass detector, recalibration-aware scheduler, greedy site optimizer and
multi-day aggregator).

Embedding notes.
Python floats are modelled as exact rationals (ℚ).  The purely numeric
pipeline (SGP4 propagation, GMST rotation, geodetic conversion and the
elevation/illumination trigonometry) is abstracted as step oracles:
`nightAt t` stands for `is_night(station, t)` at absolute Julian time `t`,
and `propAt i t` stands for the propagate-rotate-elevation block for
satellite `i`, returning `none` exactly when `sgp4` reports a non-zero
error code and otherwise the computed elevation (degrees) and Earth-fixed
position.  All control flow (the pass state machine, the scheduler, the
greedy optimizer and the day aggregation) is translated line by line.
-/

set_option maxRecDepth 100000
set_option allowUnsafeReducibility true

attribute [semireducible] Rat.add Rat.mul Rat.inv Rat.sub Rat.neg Rat.div

/-- Earth-fixed Cartesian position, in km (numpy 3-vector in the source). -/
abbrev Vec3 : Type := ℚ × ℚ × ℚ

/-- Ground station record (dataclass `GroundStation`, lines 41-47). -/
structure GroundStation where
  name : String
  lat : ℚ
  lon : ℚ
  alt : ℚ
  cloud_cover : ℚ
deriving DecidableEq, Inhabited

/-- Module constant `MIN_ELEVATION_DEG = 10.0` (line 38). -/
def MIN_ELEVATION_DEG : ℚ := 10

/-- Module constant `RECALIBRATION_TIME_MIN = 30` (line 39). -/
def RECALIBRATION_TIME_MIN : ℚ := 30

/-- One emitted pass: the tuple `(sat_idx, peak_time_jd, peak_elevation,
peak_position_ecef)` produced by `find_night_passes_fast` (line 186). -/
structure Pass where
  sat_idx : ℕ
  peak_time : ℚ
  peak_elev : ℚ
  peak_pos : Vec3
deriving DecidableEq, Inhabited

/-- The per-satellite scan state of `find_night_passes_fast`: the
`in_pass` flag and the recorded peak sample (lines 200-203). -/
structure PassState where
  in_pass : Bool
  peak_elev : ℚ
  peak_time : ℚ
  peak_pos : Vec3
deriving DecidableEq, Inhabited

/-- Number of iterations of the scan loop `while jd + fr < start_jd +
duration_jd` with `time = start + k*step` (lines 198-205): the number of
naturals `k` with `k * step_jd < duration_jd`. -/
def numSteps (duration_jd step_jd : ℚ) : ℕ := (⌈duration_jd / step_jd⌉).toNat

/-- One iteration (grid index `k`) of the scan loop body of
`find_night_passes_fast` (lines 205-255), for one satellite.  The state is
the pass state machine plus the list of passes emitted so far.  Branches in
source order: not-night closes an open pass (emitting it only if its peak
exceeded the threshold) and resets; a propagation failure skips the step
leaving the state untouched; an above-threshold elevation opens a pass or
updates its peak; a below-threshold elevation closes and emits an open
pass. -/
def passStep (nightAt : ℚ → Bool) (propAt : ℚ → Option (ℚ × Vec3)) (minElev : ℚ)
    (sat_idx : ℕ) (start_jd step_jd : ℚ) (st : PassState × List Pass) (k : ℕ) :
    PassState × List Pass :=
  let t := start_jd + k * step_jd
  let s := st.1
  let acc := st.2
  if nightAt t = false then
    if s.in_pass = true then
      if minElev < s.peak_elev then
        (⟨false, s.peak_elev, s.peak_time, s.peak_pos⟩,
          acc ++ [⟨sat_idx, s.peak_time, s.peak_elev, s.peak_pos⟩])
      else
        (⟨false, s.peak_elev, s.peak_time, s.peak_pos⟩, acc)
    else (s, acc)
  else
    match propAt t with
    | none => (s, acc)
    | some (elev, pos) =>
      if minElev < elev then
        if s.in_pass = false then
          (⟨true, elev, t, pos⟩, acc)
        else if s.peak_elev < elev then
          (⟨true, elev, t, pos⟩, acc)
        else (s, acc)
      else
        if s.in_pass = true then
          (⟨false, s.peak_elev, s.peak_time, s.peak_pos⟩,
            acc ++ [⟨sat_idx, s.peak_time, s.peak_elev, s.peak_pos⟩])
        else (s, acc)

/-- The whole scan for one satellite (lines 197-259): fold the loop body
over the time grid, then emit any pass still open at the end of the window
if its peak exceeded the threshold (line 258). -/
def findSat (nightAt : ℚ → Bool) (propAt : ℚ → Option (ℚ × Vec3)) (minElev : ℚ)
    (sat_idx : ℕ) (start_jd step_jd : ℚ) (n : ℕ) : List Pass :=
  let r := (List.range n).foldl (passStep nightAt propAt minElev sat_idx start_jd step_jd)
    (⟨false, 0, 0, (0, 0, 0)⟩, [])
  if r.1.in_pass = true ∧ minElev < r.1.peak_elev then
    r.2 ++ [⟨sat_idx, r.1.peak_time, r.1.peak_elev, r.1.peak_pos⟩]
  else r.2

/-- Pass detector `find_night_passes_fast(satellites, station, start_jd,
duration_hours)` (lines 182-261).  The satellite catalog appears as its
size `numSats` plus the propagation oracle; the station is baked into the
two oracles.  The source fixes `step_min = 2.0` (line 189) and uses the
module constant `MIN_ELEVATION_DEG`; they are parameters here so the
theorems can quantify over them as the spec's contract does. -/
def find_night_passes_fast (numSats : ℕ) (nightAt : ℚ → Bool)
    (propAt : ℕ → ℚ → Option (ℚ × Vec3)) (start_jd : ℚ) (duration_hours : ℚ)
    (step_min : ℚ) (minElev : ℚ) : List Pass :=
  let step_jd := step_min / 1440
  let duration_jd := duration_hours / 24
  let n := numSteps duration_jd step_jd
  (List.range numSats).foldl
    (fun passes i => passes ++ findSat nightAt (propAt i) minElev i start_jd step_jd n) []

/-- Python's built-in `abs` on a rational. -/
def ratAbs (q : ℚ) : ℚ := if q < 0 then -q else q

/-- Stable insertion used by `sortByElevDesc`: the element goes after every
already-placed element whose peak elevation is at least its own. -/
def insertByElev (p : Pass) : List Pass → List Pass
  | [] => [p]
  | q :: qs => if q.peak_elev ≤ p.peak_elev then p :: q :: qs else q :: insertByElev p qs

/-- Embedding of the stable sort `sorted(passes, key=lambda x: -x[2])`
(line 267): sort by peak elevation descending, ties keeping input order. -/
def sortByElevDesc : List Pass → List Pass
  | [] => []
  | p :: ps => insertByElev p (sortByElevDesc ps)

/-- The greedy acceptance loop of `schedule_observations` (lines 276-291):
skip a pass whose satellite is already observed; accept it when no already
accepted peak time is within `recal_jd` of its peak time; otherwise drop
it. -/
def schedGo (recal_jd : ℚ) : List Pass → List Pass → Finset ℕ → List ℚ → List Pass
  | [], scheduled, _, _ => scheduled
  | p :: rest, scheduled, observed_sats, obs_times =>
    if p.sat_idx ∈ observed_sats then
      schedGo recal_jd rest scheduled observed_sats obs_times
    else if obs_times.all (fun t => !decide (ratAbs (p.peak_time - t) < recal_jd)) then
      schedGo recal_jd rest (scheduled ++ [p]) (insert p.sat_idx observed_sats)
        (obs_times ++ [p.peak_time])
    else
      schedGo recal_jd rest scheduled observed_sats obs_times

/-- Scheduler `schedule_observations(passes, recal_min)` (lines 263-292). -/
def schedule_observations (passes : List Pass) (recal_min : ℚ) : List Pass :=
  let sorted_passes := sortByElevDesc passes
  let recal_jd := recal_min / 1440
  schedGo recal_jd sorted_passes [] ∅ []

/-- Distinct satellite indices of a scheduled list:
`set(s[0] for s in scheduled)` (lines 307, 337). -/
def satsOf (scheduled : List Pass) : Finset ℕ := (scheduled.map Pass.sat_idx).toFinset

/-- Cache entry of the optimizer's precomputation (lines 333-338). -/
structure CandData where
  station : GroundStation
  passes : List Pass
  scheduled : List Pass
  sats : Finset ℕ
deriving DecidableEq, Inhabited

/-- Per-station statistics record (lines 369-375). -/
structure StationStats where
  total_passes : ℕ
  scheduled : ℕ
  unique_sats : ℕ
  new_unique : ℕ
  observations : List Pass
deriving DecidableEq, Inhabited

/-- Assignment `d[k] = v` on a Python dict kept as an insertion-ordered
association list: an existing key keeps its position and gets the new
value; a new key is appended. -/
def dictInsert {β : Type} (d : List (String × β)) (k : String) (v : β) :
    List (String × β) :=
  if d.any (fun e => decide (e.1 = k)) then
    d.map (fun e => if e.1 = k then (k, v) else e)
  else d ++ [(k, v)]

/-- The optimizer's precomputation loop (lines 328-339): for every
candidate, detect passes over the fixed 24-hour window, schedule them, and
cache the station, the passes, the schedule and its satellite set under the
station's name. -/
def precompute (numSats : ℕ) (nightAt : GroundStation → ℚ → Bool)
    (propAt : GroundStation → ℕ → ℚ → Option (ℚ × Vec3)) (start_jd : ℚ)
    (candidates : List GroundStation) : List (String × CandData) :=
  candidates.foldl (fun d station =>
    let passes := find_night_passes_fast numSats (nightAt station) (propAt station)
      start_jd 24 2 MIN_ELEVATION_DEG
    let scheduled := schedule_observations passes RECALIBRATION_TIME_MIN
    dictInsert d station.name ⟨station, passes, scheduled, satsOf scheduled⟩) []

/-- Score of a candidate in a selection round (line 357):
`len(new_sats) * (1.0 - cloud_cover * 0.5)`. -/
def score (global : Finset ℕ) (data : CandData) : ℚ :=
  ((data.sats \ global).card : ℚ) * (1 - data.station.cloud_cover * (1/2))

/-- The best-candidate scan of one selection round (lines 347-362): fold
over the cached entries, skipping already selected stations and keeping the
first candidate whose score strictly exceeds the running best. -/
def optFold (selected : List GroundStation) (global : Finset ℕ)
    (entries : List (String × CandData)) (st : Option CandData × ℚ) :
    Option CandData × ℚ :=
  entries.foldl (fun b e =>
    if e.2.station ∈ selected then b
    else if b.2 < score global e.2 then (some e.2, score global e.2) else b) st

/-- One selection round of `optimize_greedy` (lines 346-375): find the best
candidate; if there is one, append its station, merge its satellites into
the global set and record its statistics, else leave the state unchanged. -/
def optStep (entries : List (String × CandData))
    (acc : List GroundStation × Finset ℕ × List (String × StationStats)) :
    List GroundStation × Finset ℕ × List (String × StationStats) :=
  match (optFold acc.1 acc.2.1 entries (none, 0)).1 with
  | none => acc
  | some data =>
    let new_sats := data.sats \ acc.2.1
    (acc.1 ++ [data.station], acc.2.1 ∪ data.sats,
      dictInsert acc.2.2 data.station.name
        ⟨data.passes.length, data.scheduled.length, data.sats.card, new_sats.card,
          data.scheduled⟩)

/-- Greedy site optimizer `optimize_greedy(satellites, candidates,
num_stations, start_jd)` (lines 321-380); returns the selected stations and
the per-station statistics.  `range(num_stations)` over a Python int is
`List.range num_stations.toNat`. -/
def optimize_greedy (numSats : ℕ) (nightAt : GroundStation → ℚ → Bool)
    (propAt : GroundStation → ℕ → ℚ → Option (ℚ × Vec3))
    (candidates : List GroundStation) (num_stations : ℤ) (start_jd : ℚ) :
    List GroundStation × List (String × StationStats) :=
  let candidate_passes := precompute numSats nightAt propAt start_jd candidates
  let r := (List.range num_stations.toNat).foldl
    (fun acc _ => optStep candidate_passes acc) ([], ∅, [])
  (r.1, r.2.2)

/-- Modelled from the spec: running maximum, starting at zero, of the
candidates' scores (the spec's "highest-scoring candidate" over the
not-yet-selected pool). -/
def specMaxScore (global : Finset ℕ) (pool : List CandData) : ℚ :=
  pool.foldl (fun m d => max m (score global d)) 0

/-- Modelled from the spec: one selection round per §4.5 of the spec —
score every not-yet-selected candidate as `|newObjects| × (1 −
cloud_cover × 0.5)`, and select a candidate of maximal strictly positive
score (the first such, matching the deterministic tie-break); a round with
no strictly positive score selects nothing. -/
def specRound (pool : List CandData) (selected : List GroundStation)
    (global : Finset ℕ) : Option CandData :=
  let avail := pool.filter (fun d => decide (d.station ∉ selected))
  let m := specMaxScore global avail
  if 0 < m then avail.find? (fun d => decide (score global d = m)) else none

/-- Modelled from the spec: `k` greedy selection rounds over the cached
candidate pool, merging each selected candidate's scheduled-object set into
the cumulative globally-observed set. -/
def specSelectSites (pool : List CandData) (k : ℕ) :
    List GroundStation × Finset ℕ :=
  (List.range k).foldl (fun acc _ =>
    match specRound pool acc.1 acc.2 with
    | none => acc
    | some d => (acc.1 ++ [d.station], acc.2 ∪ d.sats)) ([], ∅)

/-- One element of `day_obs` / `all_observations` in
`run_multi_day_analysis` (lines 519-527). -/
structure DayObs where
  sat_idx : ℕ
  time_jd : ℚ
  elevation : ℚ
  position : Vec3
  station : String
  is_first_collect : Bool
  day : ℕ
deriving DecidableEq, Inhabited

/-- One element of `daily_stats` (lines 534-539). -/
structure DayRecord where
  day : ℕ
  observations : ℕ
  unique_today : ℕ
  cumulative : ℕ
deriving DecidableEq, Inhabited

/-- The dict returned by `run_multi_day_analysis` (lines 543-547). -/
structure MultiDayResult where
  observations : List DayObs
  daily_stats : List DayRecord
  total_unique : ℕ
deriving DecidableEq, Inhabited

/-- The body of the innermost loop of `run_multi_day_analysis`
(lines 517-529): append the observation record (flagged as a first collect
when its satellite is not yet in the cumulative set), then add the
satellite to the day set and to the cumulative set. -/
def processObs (stationName : String) (day : ℕ)
    (st : List DayObs × Finset ℕ × Finset ℕ) (o : Pass) :
    List DayObs × Finset ℕ × Finset ℕ :=
  (st.1 ++ [⟨o.sat_idx, o.peak_time, o.peak_elev, o.peak_pos, stationName,
      decide (o.sat_idx ∉ st.2.2), day⟩],
    insert o.sat_idx st.2.1, insert o.sat_idx st.2.2)

/-- The per-station body of the day loop (lines 513-529): detect the day's
passes for this station over a 24-hour window, schedule them, and process
every scheduled observation. -/
def dayStationFold (numSats : ℕ) (nightAt : GroundStation → ℚ → Bool)
    (propAt : GroundStation → ℕ → ℚ → Option (ℚ × Vec3)) (day_start_jd : ℚ)
    (day : ℕ) (st : List DayObs × Finset ℕ × Finset ℕ) (station : GroundStation) :
    List DayObs × Finset ℕ × Finset ℕ :=
  let passes := find_night_passes_fast numSats (nightAt station) (propAt station)
    day_start_jd 24 2 MIN_ELEVATION_DEG
  let scheduled := schedule_observations passes RECALIBRATION_TIME_MIN
  scheduled.foldl (processObs station.name day) st

/-- One simulated day of `run_multi_day_analysis` (lines 506-541): run
detection plus scheduling for every station, extend the observation list,
and append the day's record `{day+1, len(day_obs), len(day_observed),
len(cumulative_observed)}`. -/
def multiDayStep (numSats : ℕ) (nightAt : GroundStation → ℚ → Bool)
    (propAt : GroundStation → ℕ → ℚ → Option (ℚ × Vec3))
    (stations : List GroundStation) (start_jd : ℚ)
    (acc : List DayObs × Finset ℕ × List DayRecord) (day : ℕ) :
    List DayObs × Finset ℕ × List DayRecord :=
  let day_start_jd := start_jd + day
  let r := stations.foldl (dayStationFold numSats nightAt propAt day_start_jd day)
    ([], ∅, acc.2.1)
  (acc.1 ++ r.1, r.2.2,
    acc.2.2 ++ [⟨day + 1, r.1.length, r.2.1.card, r.2.2.card⟩])

/-- Multi-day aggregator `run_multi_day_analysis(satellites, stations,
start_jd, num_days)` (lines 497-547); returns the result dict (observation
list, daily stats, total unique count) and the cumulative observed set. -/
def run_multi_day_analysis (numSats : ℕ) (nightAt : GroundStation → ℚ → Bool)
    (propAt : GroundStation → ℕ → ℚ → Option (ℚ × Vec3))
    (stations : List GroundStation) (start_jd : ℚ) (num_days : ℕ) :
    MultiDayResult × Finset ℕ :=
  let r := (List.range num_days).foldl
    (multiDayStep numSats nightAt propAt stations start_jd) ([], ∅, [])
  (⟨r.1, r.2.2, r.2.1.card⟩, r.2.1)

/-- Distinct satellite ids of a list of day observations. -/
def idsOf (l : List DayObs) : Finset ℕ := (l.map DayObs.sat_idx).toFinset

/-- Modelled from the claim: the number of distinct object ids scheduled on
day `d` that were not already in the cumulative coverage set at the start
of that day (the set of ids observed on earlier days). -/
def newlyObservedOnDay (obs : List DayObs) (d : ℕ) : ℕ :=
  ((idsOf (obs.filter (fun o => decide (o.day = d)))) \
    (idsOf (obs.filter (fun o => decide (o.day < d))))).card

/-! Helper lemmas: the pass-detector state machine. -/

/-- Joint invariant of the scan state: an open pass and every emitted pass
has its recorded peak strictly above the threshold and its peak time
satisfying the grid/night predicate `G`. -/
def StInv (minElev : ℚ) (G : ℚ → Prop) (st : PassState × List Pass) : Prop :=
  (st.1.in_pass = true → minElev < st.1.peak_elev ∧ G st.1.peak_time) ∧
  ∀ o ∈ st.2, minElev < o.peak_elev ∧ G o.peak_time

theorem passStep_inv {minElev : ℚ} {G : ℚ → Prop} {nightAt : ℚ → Bool}
    {propAt : ℚ → Option (ℚ × Vec3)} {sat_idx : ℕ} {start_jd step_jd : ℚ}
    {s : PassState} {acc : List Pass} {k : ℕ}
    (hG : nightAt (start_jd + k * step_jd) = true → G (start_jd + k * step_jd))
    (h1 : s.in_pass = true → minElev < s.peak_elev ∧ G s.peak_time)
    (h2 : ∀ o ∈ acc, minElev < o.peak_elev ∧ G o.peak_time) :
    StInv minElev G (passStep nightAt propAt minElev sat_idx start_jd step_jd (s, acc) k) := by
  have hmem : ∀ o ∈ acc ++ [(⟨sat_idx, s.peak_time, s.peak_elev, s.peak_pos⟩ : Pass)],
      s.in_pass = true → minElev < o.peak_elev ∧ G o.peak_time := by
    intro o ho hin
    rcases List.mem_append.mp ho with ho | ho
    · exact h2 o ho
    · simp only [List.mem_singleton] at ho
      subst ho
      exact h1 hin
  cases hn : nightAt (start_jd + k * step_jd) with
  | false =>
    cases hin : s.in_pass with
    | false =>
      simp only [passStep, hn, hin]
      exact ⟨h1, h2⟩
    | true =>
      by_cases hq : minElev < s.peak_elev
      · simp only [passStep, hn, hin, if_true, if_pos hq]
        exact ⟨by simp, fun o ho => hmem o ho hin⟩
      · simp only [passStep, hn, hin, if_true, if_neg hq]
        exact ⟨by simp, h2⟩
  | true =>
    cases hp : propAt (start_jd + k * step_jd) with
    | none =>
      simp only [passStep, hn, hp]
      exact ⟨h1, h2⟩
    | some ep =>
      obtain ⟨elev, pos⟩ := ep
      by_cases he : minElev < elev
      · cases hin : s.in_pass with
        | false =>
          simp only [passStep, hn, hp, hin, if_pos he]
          exact ⟨fun _ => ⟨he, hG hn⟩, h2⟩
        | true =>
          by_cases hup : s.peak_elev < elev
          · simp only [passStep, hn, hp, hin, if_pos he, if_pos hup]
            exact ⟨fun _ => ⟨he, hG hn⟩, h2⟩
          · simp only [passStep, hn, hp, hin, if_pos he, if_neg hup]
            exact ⟨h1, h2⟩
      · cases hin : s.in_pass with
        | false =>
          simp only [passStep, hn, hp, hin, if_neg he]
          exact ⟨h1, h2⟩
        | true =>
          simp only [passStep, hn, hp, hin, if_neg he, if_true]
          exact ⟨by simp, fun o ho => hmem o ho hin⟩

theorem foldl_passStep_inv {minElev : ℚ} {G : ℚ → Prop} {nightAt : ℚ → Bool}
    {propAt : ℚ → Option (ℚ × Vec3)} {sat_idx : ℕ} {start_jd step_jd : ℚ} :
    ∀ (l : List ℕ) (st : PassState × List Pass),
    (∀ k ∈ l, nightAt (start_jd + k * step_jd) = true → G (start_jd + k * step_jd)) →
    StInv minElev G st →
    StInv minElev G (l.foldl (passStep nightAt propAt minElev sat_idx start_jd step_jd) st)
  | [], st, _, h => h
  | k :: l, st, hks, h => by
    simp only [List.foldl_cons]
    exact foldl_passStep_inv l _ (fun k' hk' => hks k' (List.mem_cons_of_mem _ hk'))
      (passStep_inv (hks k (List.mem_cons_self _ _)) h.1 h.2)

theorem findSat_mem {minElev : ℚ} {G : ℚ → Prop} {nightAt : ℚ → Bool}
    {propAt : ℚ → Option (ℚ × Vec3)} {sat_idx : ℕ} {start_jd step_jd : ℚ} {n : ℕ}
    (hG : ∀ k, k < n → nightAt (start_jd + k * step_jd) = true →
      G (start_jd + k * step_jd)) :
    ∀ o ∈ findSat nightAt propAt minElev sat_idx start_jd step_jd n,
      minElev < o.peak_elev ∧ G o.peak_time := by
  have hinv : StInv minElev G
      ((List.range n).foldl (passStep nightAt propAt minElev sat_idx start_jd step_jd)
        (⟨false, 0, 0, (0, 0, 0)⟩, [])) := by
    refine foldl_passStep_inv _ _ (fun k hk => hG k (List.mem_range.mp hk)) ?_
    exact ⟨fun hc => by simp at hc, fun o ho => by simp at ho⟩
  intro o ho
  simp only [findSat] at ho
  split at ho
  · rename_i hcond
    rcases List.mem_append.mp ho with ho | ho
    · exact hinv.2 o ho
    · simp only [List.mem_singleton] at ho
      subst ho
      exact hinv.1 hcond.1
  · exact hinv.2 o ho

theorem mem_foldl_append {α β : Type} (f : β → List α) :
    ∀ (l : List β) (init : List α) (x : α),
    x ∈ l.foldl (fun acc i => acc ++ f i) init → x ∈ init ∨ ∃ i ∈ l, x ∈ f i
  | [], init, x, hx => Or.inl hx
  | b :: l, init, x, hx => by
    simp only [List.foldl_cons] at hx
    rcases mem_foldl_append f l (init ++ f b) x hx with hx | ⟨i, hi, hx⟩
    · rcases List.mem_append.mp hx with hx | hx
      · exact Or.inl hx
      · exact Or.inr ⟨b, List.mem_cons_self _ _, hx⟩
    · exact Or.inr ⟨i, List.mem_cons_of_mem _ hi, hx⟩

theorem find_mem {minElev : ℚ} {G : ℚ → Prop} {numSats : ℕ} {nightAt : ℚ → Bool}
    {propAt : ℕ → ℚ → Option (ℚ × Vec3)} {start_jd duration_hours step_min : ℚ}
    (hG : ∀ k, k < numSteps (duration_hours / 24) (step_min / 1440) →
      nightAt (start_jd + k * (step_min / 1440)) = true →
      G (start_jd + k * (step_min / 1440))) :
    ∀ o ∈ find_night_passes_fast numSats nightAt propAt start_jd duration_hours
      step_min minElev, minElev < o.peak_elev ∧ G o.peak_time := by
  intro o ho
  simp only [find_night_passes_fast] at ho
  rcases mem_foldl_append _ _ _ _ ho with hx | ⟨i, _, hx⟩
  · simp at hx
  · exact findSat_mem hG o hx

/-- C3: every pass emitted by the pass detector — whether closed by a
below-threshold sample, closed by the site leaving darkness, or still open
at the end of the scan window — has peak elevation strictly greater than
the minimum elevation threshold. -/
theorem C3_peak_above_threshold (numSats : ℕ) (nightAt : ℚ → Bool)
    (propAt : ℕ → ℚ → Option (ℚ × Vec3)) (start_jd duration_hours step_min minElev : ℚ)
    (o : Pass)
    (ho : o ∈ find_night_passes_fast numSats nightAt propAt start_jd duration_hours
      step_min minElev) :
    minElev < o.peak_elev :=
  (@find_mem minElev (fun _ => True) numSats nightAt propAt start_jd duration_hours
    step_min (fun _ _ _ => trivial) o ho).1

theorem C3_witness : (10 : ℚ) <
    (Pass.mk 0 0 20 (0, 0, 0)).peak_elev :=
  C3_peak_above_threshold 1 (fun _ => true) (fun _ _ => some (20, (0, 0, 0))) 0 (2/60) 2 10
    (Pass.mk 0 0 20 (0, 0, 0)) (by decide)

/-- C4: every pass emitted by the pass detector has its peak time on the
scan grid at a step where the night predicate returned true. -/
theorem C4_peak_time_is_dark (numSats : ℕ) (nightAt : ℚ → Bool)
    (propAt : ℕ → ℚ → Option (ℚ × Vec3)) (start_jd duration_hours step_min minElev : ℚ)
    (o : Pass)
    (ho : o ∈ find_night_passes_fast numSats nightAt propAt start_jd duration_hours
      step_min minElev) :
    ∃ k, k < numSteps (duration_hours / 24) (step_min / 1440) ∧
      o.peak_time = start_jd + k * (step_min / 1440) ∧
      nightAt (start_jd + k * (step_min / 1440)) = true :=
  (@find_mem minElev
    (fun t => ∃ k, k < numSteps (duration_hours / 24) (step_min / 1440) ∧
      t = start_jd + k * (step_min / 1440) ∧
      nightAt (start_jd + k * (step_min / 1440)) = true)
    numSats nightAt propAt start_jd duration_hours step_min
    (fun k hk hn => ⟨k, hk, rfl, hn⟩) o ho).2

theorem C4_witness : ∃ k, k < numSteps ((2/60) / 24) ((2:ℚ) / 1440) ∧
    (Pass.mk 0 0 20 (0, 0, 0)).peak_time = (0:ℚ) + k * ((2:ℚ) / 1440) ∧
    (fun _ : ℚ => true) ((0:ℚ) + k * ((2:ℚ) / 1440)) = true :=
  C4_peak_time_is_dark 1 (fun _ => true) (fun _ _ => some (20, (0, 0, 0))) 0 (2/60) 2 10
    (Pass.mk 0 0 20 (0, 0, 0)) (by decide)

/-- C1 (amended): at a dark grid step where the propagator returns a
non-success status the scan-loop body leaves the state machine and the
emitted pass list exactly unchanged — no pass is opened or extended, and,
unlike a below-threshold elevation, an open pass is not closed. -/
theorem C1_prop_failure_skips_step (nightAt : ℚ → Bool)
    (propAt : ℚ → Option (ℚ × Vec3)) (minElev : ℚ) (sat_idx : ℕ)
    (start_jd step_jd : ℚ) (s : PassState) (acc : List Pass) (k : ℕ)
    (hnight : nightAt (start_jd + k * step_jd) = true)
    (hfail : propAt (start_jd + k * step_jd) = none) :
    passStep nightAt propAt minElev sat_idx start_jd step_jd (s, acc) k = (s, acc) := by
  simp [passStep, hnight, hfail]

theorem C1_prop_failure_skips_step_witness :
    passStep (fun _ => true) (fun _ => none) 10 0 0 (1/720)
      (⟨true, 20, 0, (0, 0, 0)⟩, []) 1 = (⟨true, 20, 0, (0, 0, 0)⟩, []) :=
  C1_prop_failure_skips_step _ _ 10 0 0 (1/720) _ _ 1 rfl rfl

/-! Helper lemmas: the scheduler. -/

theorem ratAbs_eq_abs (q : ℚ) : ratAbs q = |q| := by
  unfold ratAbs
  split
  · rename_i hq
    exact (abs_of_neg hq).symm
  · rename_i hq
    exact (abs_of_nonneg (not_lt.mp hq)).symm

theorem ratAbs_sub_comm (a b : ℚ) : ratAbs (a - b) = ratAbs (b - a) := by
  rw [ratAbs_eq_abs, ratAbs_eq_abs, abs_sub_comm]

theorem mem_insertByElev (p : Pass) :
    ∀ (l : List Pass) (x : Pass), x ∈ insertByElev p l → x = p ∨ x ∈ l
  | [], x, hx => by
    simp only [insertByElev, List.mem_singleton] at hx
    exact Or.inl hx
  | q :: qs, x, hx => by
    simp only [insertByElev] at hx
    split at hx
    · rcases List.mem_cons.mp hx with hx | hx
      · exact Or.inl hx
      · exact Or.inr hx
    · rcases List.mem_cons.mp hx with hx | hx
      · exact Or.inr (by simp [hx])
      · rcases mem_insertByElev p qs x hx with hx | hx
        · exact Or.inl hx
        · exact Or.inr (List.mem_cons_of_mem _ hx)

theorem mem_sortByElevDesc :
    ∀ (l : List Pass) (x : Pass), x ∈ sortByElevDesc l → x ∈ l
  | [], x, hx => by simp only [sortByElevDesc] at hx; exact absurd hx (by simp)
  | p :: ps, x, hx => by
    simp only [sortByElevDesc] at hx
    rcases mem_insertByElev p _ x hx with hx | hx
    · simp [hx]
    · exact List.mem_cons_of_mem _ (mem_sortByElevDesc ps x hx)

theorem schedGo_sound (recal_jd : ℚ) :
    ∀ (rest scheduled : List Pass) (observed : Finset ℕ) (times : List ℚ),
    times = scheduled.map Pass.peak_time →
    (∀ o ∈ scheduled, o.sat_idx ∈ observed) →
    (scheduled.map Pass.sat_idx).Nodup →
    scheduled.Pairwise (fun a b => recal_jd ≤ ratAbs (a.peak_time - b.peak_time)) →
    ((schedGo recal_jd rest scheduled observed times).Pairwise
        (fun a b => recal_jd ≤ ratAbs (a.peak_time - b.peak_time)) ∧
      ((schedGo recal_jd rest scheduled observed times).map Pass.sat_idx).Nodup)
  | [], scheduled, observed, times, _, _, hnd, hpw => by
    simp only [schedGo]
    exact ⟨hpw, hnd⟩
  | p :: rest, scheduled, observed, times, htimes, hobs, hnd, hpw => by
    simp only [schedGo]
    by_cases hmem : p.sat_idx ∈ observed
    · simp only [if_pos hmem]
      exact schedGo_sound recal_jd rest scheduled observed times htimes hobs hnd hpw
    · simp only [if_neg hmem]
      by_cases hfree :
          times.all (fun t => !decide (ratAbs (p.peak_time - t) < recal_jd)) = true
      · simp only [hfree, if_true]
        have hgap : ∀ a ∈ scheduled, recal_jd ≤ ratAbs (a.peak_time - p.peak_time) := by
          intro a ha
          have hat : a.peak_time ∈ times := htimes ▸ List.mem_map_of_mem _ ha
          have := List.all_eq_true.mp hfree _ hat
          simp only [Bool.not_eq_true', decide_eq_false_iff_not, not_lt] at this
          rw [ratAbs_sub_comm]
          exact this
        refine schedGo_sound recal_jd rest (scheduled ++ [p]) _ _ ?_ ?_ ?_ ?_
        · rw [List.map_append, htimes]
          simp
        · intro o ho
          rcases List.mem_append.mp ho with ho | ho
          · exact Finset.mem_insert_of_mem (hobs o ho)
          · simp only [List.mem_singleton] at ho
            subst ho
            exact Finset.mem_insert_self _ _
        · rw [List.map_append]
          simp only [List.nodup_append, List.map_cons, List.map_nil]
          refine ⟨hnd, List.nodup_singleton _, ?_⟩
          intro a ha hb
          simp only [List.mem_singleton] at hb
          subst hb
          rcases List.mem_map.mp ha with ⟨o, ho, hoa⟩
          exact hmem (hoa ▸ hobs o ho)
        · rw [List.pairwise_append]
          refine ⟨hpw, List.pairwise_singleton _ _, ?_⟩
          intro a ha b hb
          simp only [List.mem_singleton] at hb
          subst hb
          exact hgap a ha
      · simp only [hfree]
        simp only [Bool.false_eq_true, if_false]
        exact schedGo_sound recal_jd rest scheduled observed times htimes hobs hnd hpw

/-- C5: every schedule produced by `schedule_observations` keeps every pair
of distinct accepted observations at least the recalibration interval
apart (peak times in Julian days, the interval being `recal_min` minutes,
i.e. `recal_min / 1440` days), and schedules no satellite twice. -/
theorem C5_schedule_separated_and_unique (passes : List Pass) (recal_min : ℚ) :
    (schedule_observations passes recal_min).Pairwise
      (fun a b => recal_min / 1440 ≤ |a.peak_time - b.peak_time|) ∧
    ((schedule_observations passes recal_min).map Pass.sat_idx).Nodup := by
  have h := schedGo_sound (recal_min / 1440) (sortByElevDesc passes) [] ∅ []
    (by simp) (by simp) (by simp) (by simp)
  simp only [schedule_observations]
  exact ⟨h.1.imp (fun hab => ratAbs_eq_abs _ ▸ hab), h.2⟩

theorem schedGo_subset (recal_jd : ℚ) :
    ∀ (rest scheduled : List Pass) (observed : Finset ℕ) (times : List ℚ) (x : Pass),
    x ∈ schedGo recal_jd rest scheduled observed times → x ∈ scheduled ∨ x ∈ rest
  | [], scheduled, observed, times, x, hx => by
    simp only [schedGo] at hx
    exact Or.inl hx
  | p :: rest, scheduled, observed, times, x, hx => by
    simp only [schedGo] at hx
    split at hx
    · rcases schedGo_subset recal_jd rest scheduled observed times x hx with h | h
      · exact Or.inl h
      · exact Or.inr (List.mem_cons_of_mem _ h)
    · split at hx
      · rcases schedGo_subset recal_jd rest (scheduled ++ [p]) _ _ x hx with h | h
        · rcases List.mem_append.mp h with h | h
          · exact Or.inl h
          · simp only [List.mem_singleton] at h
            exact Or.inr (by simp [h])
        · exact Or.inr (List.mem_cons_of_mem _ h)
      · rcases schedGo_subset recal_jd rest scheduled observed times x hx with h | h
        · exact Or.inl h
        · exact Or.inr (List.mem_cons_of_mem _ h)

/-- C10: the scheduler only selects: every returned observation is an
element of the input pass list, with satellite index, peak time, peak
elevation and peak position unchanged. -/
theorem C10_schedule_is_subset (passes : List Pass) (recal_min : ℚ) (x : Pass)
    (hx : x ∈ schedule_observations passes recal_min) : x ∈ passes := by
  simp only [schedule_observations] at hx
  rcases schedGo_subset _ _ _ _ _ _ hx with h | h
  · exact absurd h (by simp)
  · exact mem_sortByElevDesc _ _ h

theorem C10_schedule_is_subset_witness :
    (⟨7, 0, 20, (0, 0, 0)⟩ : Pass) ∈ [(⟨7, 0, 20, (0, 0, 0)⟩ : Pass)] :=
  C10_schedule_is_subset [⟨7, 0, 20, (0, 0, 0)⟩] 30 ⟨7, 0, 20, (0, 0, 0)⟩ (by decide)

/-! Helper lemmas: the greedy optimizer. -/

/-- Plain best-tracking scan over candidate values (the inner loop of a
selection round restricted to the not-yet-selected candidates). -/
def bestFold (g : Finset ℕ) : List CandData → (Option CandData × ℚ) → Option CandData × ℚ
  | [], st => st
  | d :: l, st =>
    bestFold g l (if st.2 < score g d then (some d, score g d) else st)

/-- Running maximum of the candidates' scores, from a given start value. -/
def maxScoreFrom (g : Finset ℕ) : List CandData → ℚ → ℚ
  | [], m => m
  | d :: l, m => maxScoreFrom g l (max m (score g d))

theorem specMaxScore_eq (g : Finset ℕ) :
    ∀ (l : List CandData), specMaxScore g l = maxScoreFrom g l 0 := by
  have haux : ∀ (l : List CandData) (m : ℚ),
      l.foldl (fun a d => max a (score g d)) m = maxScoreFrom g l m := by
    intro l
    induction l with
    | nil => intro m; rfl
    | cons d l ih => intro m; simp only [List.foldl_cons, maxScoreFrom, ih]
  intro l
  exact haux l 0

theorem optFold_eq_bestFold (sel : List GroundStation) (g : Finset ℕ) :
    ∀ (entries : List (String × CandData)) (st : Option CandData × ℚ),
    optFold sel g entries st =
      bestFold g ((entries.map Prod.snd).filter (fun d => decide (d.station ∉ sel))) st
  | [], st => rfl
  | e :: entries, st => by
    simp only [optFold, List.foldl_cons, List.map_cons]
    by_cases hm : e.2.station ∈ sel
    · rw [if_pos hm, List.filter_cons_of_neg (by simpa using hm)]
      exact optFold_eq_bestFold sel g entries st
    · rw [if_neg hm, List.filter_cons_of_pos (by simpa using hm)]
      rw [show (bestFold g (e.2 :: (entries.map Prod.snd).filter
          (fun d => decide (d.station ∉ sel))) st) = bestFold g ((entries.map Prod.snd).filter
          (fun d => decide (d.station ∉ sel)))
          (if st.2 < score g e.2 then (some e.2, score g e.2) else st) from rfl]
      exact optFold_eq_bestFold sel g entries _

theorem le_maxScoreFrom (g : Finset ℕ) :
    ∀ (l : List CandData) (m : ℚ), m ≤ maxScoreFrom g l m
  | [], m => le_refl m
  | d :: l, m =>
    le_trans (le_max_left m (score g d)) (le_maxScoreFrom g l (max m (score g d)))

theorem bestFold_snd (g : Finset ℕ) :
    ∀ (l : List CandData) (st : Option CandData × ℚ),
    (bestFold g l st).2 = maxScoreFrom g l st.2
  | [], st => rfl
  | d :: l, st => by
    simp only [bestFold, maxScoreFrom]
    rcases lt_or_ge st.2 (score g d) with hlt | hge
    · rw [if_pos hlt, bestFold_snd g l _, max_eq_right (le_of_lt hlt)]
    · rw [if_neg (not_lt.mpr hge), bestFold_snd g l _, max_eq_left hge]

theorem bestFold_fst (g : Finset ℕ) :
    ∀ (l : List CandData) (st : Option CandData × ℚ),
    (bestFold g l st).1 =
      if st.2 < maxScoreFrom g l st.2 then
        l.find? (fun d => decide (score g d = maxScoreFrom g l st.2))
      else st.1
  | [], st => by
    simp only [bestFold, maxScoreFrom, lt_self_iff_false, if_false]
  | d :: l, st => by
    simp only [bestFold, maxScoreFrom]
    rcases lt_or_ge st.2 (score g d) with hlt | hge
    · rw [if_pos hlt]
      simp only [max_eq_right (le_of_lt hlt)]
      have hsM : score g d ≤ maxScoreFrom g l (score g d) := le_maxScoreFrom g l _
      have hout : st.2 < maxScoreFrom g l (score g d) := lt_of_lt_of_le hlt hsM
      rw [bestFold_fst g l (some d, score g d), if_pos hout]
      rcases lt_or_ge (score g d) (maxScoreFrom g l (score g d)) with hlt2 | hge2
      · have hne : score g d ≠ maxScoreFrom g l (score g d) := ne_of_lt hlt2
        rw [if_pos hlt2, List.find?_cons_of_neg _ (by simpa using hne)]
      · have heq : score g d = maxScoreFrom g l (score g d) := le_antisymm hsM hge2
        rw [if_neg (not_lt.mpr hge2), List.find?_cons_of_pos _ (by simpa using heq)]
    · rw [if_neg (not_lt.mpr hge)]
      simp only [max_eq_left hge]
      rw [bestFold_fst g l st]
      rcases lt_or_ge st.2 (maxScoreFrom g l st.2) with hlt2 | hge2
      · have hne : score g d ≠ maxScoreFrom g l st.2 :=
          ne_of_lt (lt_of_le_of_lt hge hlt2)
        rw [if_pos hlt2, if_pos hlt2, List.find?_cons_of_neg _ (by simpa using hne)]
      · rw [if_neg (not_lt.mpr hge2), if_neg (not_lt.mpr hge2)]

theorem optFold_eq_specRound (sel : List GroundStation) (g : Finset ℕ)
    (entries : List (String × CandData)) :
    (optFold sel g entries (none, 0)).1 = specRound (entries.map Prod.snd) sel g := by
  rw [optFold_eq_bestFold, bestFold_fst]
  simp only [specRound, specMaxScore_eq]

theorem optStep_spec (entries : List (String × CandData))
    (acc : List GroundStation × Finset ℕ × List (String × StationStats)) :
    ((optStep entries acc).1, (optStep entries acc).2.1) =
      (match specRound (entries.map Prod.snd) acc.1 acc.2.1 with
        | none => (acc.1, acc.2.1)
        | some d => (acc.1 ++ [d.station], acc.2.1 ∪ d.sats)) := by
  simp only [optStep, optFold_eq_specRound]
  cases specRound (entries.map Prod.snd) acc.1 acc.2.1 with
  | none => rfl
  | some d => rfl

theorem optLoop_eq_spec (entries : List (String × CandData)) :
    ∀ k : ℕ,
    (((List.range k).foldl (fun acc _ => optStep entries acc) ([], ∅, [])).1,
      ((List.range k).foldl (fun acc _ => optStep entries acc) ([], ∅, [])).2.1) =
    specSelectSites (entries.map Prod.snd) k
  | 0 => rfl
  | (k + 1) => by
    have ih := optLoop_eq_spec entries k
    simp only [specSelectSites] at ih ⊢
    rw [List.range_succ, List.foldl_append, List.foldl_append]
    simp only [List.foldl_cons, List.foldl_nil]
    rw [← ih]
    exact optStep_spec entries _

theorem optStep_length (entries : List (String × CandData))
    (acc : List GroundStation × Finset ℕ × List (String × StationStats)) :
    (optStep entries acc).1.length ≤ acc.1.length + 1 := by
  unfold optStep
  split
  · exact Nat.le_succ _
  · simp

theorem optLoop_length (entries : List (String × CandData)) :
    ∀ k : ℕ,
    ((List.range k).foldl (fun acc _ => optStep entries acc) ([], ∅, [])).1.length ≤ k
  | 0 => le_refl 0
  | (k + 1) => by
    have ih := optLoop_length entries k
    rw [List.range_succ, List.foldl_append]
    simp only [List.foldl_cons, List.foldl_nil]
    exact le_trans (optStep_length entries _) (Nat.succ_le_succ ih)

/-- C6: the greedy optimizer runs at most `k` selection rounds, each
behaving exactly as the spec describes (score every not-yet-selected cached
candidate as `|newObjects| × (1 − cloud_cover × 0.5)` against the
cumulative globally-observed set, select a candidate of maximal strictly
positive score and merge its satellites into the global set, select nothing
when no score is strictly positive), so its selected-station list equals
the spec-modelled selection and has at most `k` entries. -/
theorem C6_greedy_matches_spec (numSats : ℕ) (nightAt : GroundStation → ℚ → Bool)
    (propAt : GroundStation → ℕ → ℚ → Option (ℚ × Vec3))
    (candidates : List GroundStation) (num_stations : ℤ) (start_jd : ℚ) :
    (optimize_greedy numSats nightAt propAt candidates num_stations start_jd).1 =
      (specSelectSites
        ((precompute numSats nightAt propAt start_jd candidates).map Prod.snd)
        num_stations.toNat).1 ∧
    (optimize_greedy numSats nightAt propAt candidates num_stations start_jd).1.length ≤
      num_stations.toNat := by
  constructor
  · have h := optLoop_eq_spec (precompute numSats nightAt propAt start_jd candidates)
      num_stations.toNat
    simp only [optimize_greedy]
    rw [← h]
  · exact optLoop_length _ _

/-- C8: with an empty candidate list, or a non-positive requested number of
sites, the optimizer returns an empty selection and empty per-site
statistics rather than raising an error. -/
theorem C8_degenerate_input_empty (numSats : ℕ) (nightAt : GroundStation → ℚ → Bool)
    (propAt : GroundStation → ℕ → ℚ → Option (ℚ × Vec3))
    (candidates : List GroundStation) (num_stations : ℤ) (start_jd : ℚ)
    (h : candidates = [] ∨ num_stations ≤ 0) :
    optimize_greedy numSats nightAt propAt candidates num_stations start_jd = ([], []) := by
  rcases h with h | h
  · subst h
    have hid : ∀ (n : ℕ) (init : List GroundStation × Finset ℕ × List (String × StationStats)),
        (List.range n).foldl (fun acc _ => optStep [] acc) init = init := by
      intro n
      induction n with
      | zero => intro init; rfl
      | succ n ih =>
        intro init
        rw [List.range_succ, List.foldl_append, ih]
        simp [optStep, optFold]
    simp only [optimize_greedy, precompute, List.foldl_nil]
    rw [hid]
  · have h0 : num_stations.toNat = 0 := Int.toNat_of_nonpos h
    simp [optimize_greedy, h0]

theorem C8_degenerate_input_empty_witness :
    optimize_greedy 0 (fun _ _ => true) (fun _ _ _ => none) [] 3 0 = ([], []) :=
  C8_degenerate_input_empty 0 (fun _ _ => true) (fun _ _ _ => none) [] 3 0 (Or.inl rfl)

theorem optFold_some_inv (sel : List GroundStation) (g : Finset ℕ) :
    ∀ (entries : List (String × CandData)) (b : Option CandData) (m : ℚ),
    0 ≤ m → (∀ d, b = some d → d.station ∉ sel ∧ 0 < score g d) →
    ∀ d, (optFold sel g entries (b, m)).1 = some d →
      d.station ∉ sel ∧ 0 < score g d
  | [], b, m, _, hb, d, hd => hb d hd
  | e :: entries, b, m, hm, hb, d, hd => by
    simp only [optFold, List.foldl_cons] at hd
    by_cases hmem : e.2.station ∈ sel
    · rw [if_pos hmem] at hd
      exact optFold_some_inv sel g entries b m hm hb d hd
    · rw [if_neg hmem] at hd
      by_cases hlt : m < score g e.2
      · rw [if_pos hlt] at hd
        refine optFold_some_inv sel g entries (some e.2) (score g e.2)
          (le_of_lt (lt_of_le_of_lt hm hlt)) ?_ d hd
        intro d' hd'
        obtain rfl : e.2 = d' := Option.some_inj.mp hd'
        exact ⟨hmem, lt_of_le_of_lt hm hlt⟩
      · rw [if_neg hlt] at hd
        exact optFold_some_inv sel g entries b m hm hb d hd

theorem score_pos_new_unique {g : Finset ℕ} {d : CandData}
    (h : 0 < score g d) : 1 ≤ (d.sats \ g).card := by
  by_contra hc
  have h0 : (d.sats \ g).card = 0 := by omega
  rw [score, h0] at h
  simp at h

theorem mem_dictInsert {β : Type} (d : List (String × β)) (k : String) (v : β) :
    ∀ e ∈ dictInsert d k v, e ∈ d ∨ e = (k, v) := by
  intro e he
  unfold dictInsert at he
  split at he
  · rcases List.mem_map.mp he with ⟨x, hx, hxe⟩
    by_cases hk : x.1 = k
    · right
      rw [← hxe, if_pos hk]
    · left
      rw [← hxe, if_neg hk]
      exact hx
  · rcases List.mem_append.mp he with he | he
    · exact Or.inl he
    · simp only [List.mem_singleton] at he
      exact Or.inr he

theorem optStep_nodup_new (entries : List (String × CandData))
    (acc : List GroundStation × Finset ℕ × List (String × StationStats))
    (h1 : acc.1.Nodup) (h2 : ∀ e ∈ acc.2.2, 1 ≤ e.2.new_unique) :
    (optStep entries acc).1.Nodup ∧
    ∀ e ∈ (optStep entries acc).2.2, 1 ≤ e.2.new_unique := by
  unfold optStep
  split
  · exact ⟨h1, h2⟩
  · rename_i d hbest
    obtain ⟨hnot, hpos⟩ := optFold_some_inv _ _ entries none 0 (le_refl 0)
      (by intro d' hd'; cases hd') d hbest
    constructor
    · refine List.Nodup.append h1 (List.nodup_singleton _) ?_
      intro a ha hb
      simp only [List.mem_singleton] at hb
      subst hb
      exact hnot ha
    · intro e he
      rcases mem_dictInsert _ _ _ e he with he | he
      · exact h2 e he
      · subst he
        exact score_pos_new_unique hpos

theorem optLoop_nodup_new (entries : List (String × CandData)) :
    ∀ k : ℕ,
    ((List.range k).foldl (fun acc _ => optStep entries acc) ([], ∅, [])).1.Nodup ∧
    ∀ e ∈ ((List.range k).foldl (fun acc _ => optStep entries acc) ([], ∅, [])).2.2,
      1 ≤ e.2.new_unique
  | 0 => ⟨List.nodup_nil, by simp⟩
  | (k + 1) => by
    obtain ⟨ih1, ih2⟩ := optLoop_nodup_new entries k
    rw [List.range_succ, List.foldl_append]
    simp only [List.foldl_cons, List.foldl_nil]
    exact optStep_nodup_new entries _ ih1 ih2

/-- C9: when every candidate has a cloud-cover factor in `[0,1]`, every
selected station was selected with strictly positive weighted score, hence
each per-site statistics record shows at least one object id not covered
by the sites selected before it, and no station appears twice in the
selection. -/
theorem C9_selection_contributes (numSats : ℕ) (nightAt : GroundStation → ℚ → Bool)
    (propAt : GroundStation → ℕ → ℚ → Option (ℚ × Vec3))
    (candidates : List GroundStation) (num_stations : ℤ) (start_jd : ℚ)
    (hcc : ∀ st ∈ candidates, 0 ≤ st.cloud_cover ∧ st.cloud_cover ≤ 1) :
    (optimize_greedy numSats nightAt propAt candidates num_stations start_jd).1.Nodup ∧
    ∀ e ∈ (optimize_greedy numSats nightAt propAt candidates num_stations start_jd).2,
      1 ≤ e.2.new_unique := by
  have h := optLoop_nodup_new (precompute numSats nightAt propAt start_jd candidates)
    num_stations.toNat
  exact ⟨h.1, h.2⟩

theorem C9_selection_contributes_witness :
    (optimize_greedy 0 (fun _ _ => true) (fun _ _ _ => none)
        [⟨"A", 0, 0, 0, 0⟩] 1 0).1.Nodup ∧
    ∀ e ∈ (optimize_greedy 0 (fun _ _ => true) (fun _ _ _ => none)
        [⟨"A", 0, 0, 0, 0⟩] 1 0).2, 1 ≤ e.2.new_unique :=
  C9_selection_contributes 0 (fun _ _ => true) (fun _ _ _ => none)
    [⟨"A", 0, 0, 0, 0⟩] 1 0 (by decide)

/-- C1 as stated is false: a propagation failure is not treated like a
below-threshold sample.  With a three-step window and a failure at the
middle step, the detector keeps the pass open across the failure and emits
one pass, while replacing the failure by a below-threshold elevation
(−90°, the sentinel `sat_elevation` returns on failure) closes the pass and
emits two. -/
theorem C1_counterexample :
    find_night_passes_fast 1 (fun _ => true)
      (fun _ t => if t = 1/720 then none
        else if t = 0 then some (20, (0, 0, 0)) else some (30, (0, 0, 0)))
      0 (6/60) 2 10
    ≠ find_night_passes_fast 1 (fun _ => true)
      (fun _ t => if t = 1/720 then some (-90, (0, 0, 0))
        else if t = 0 then some (20, (0, 0, 0)) else some (30, (0, 0, 0)))
      0 (6/60) 2 10 := by decide



/-! Helper lemmas: the multi-day aggregator. -/

theorem idsOf_append (a b : List DayObs) : idsOf (a ++ b) = idsOf a ∪ idsOf b := by
  simp [idsOf]

theorem idsOf_concat (l : List DayObs) (x : DayObs) :
    idsOf (l ++ [x]) = insert x.sat_idx (idsOf l) := by
  rw [idsOf_append]
  have h1 : idsOf [x] = {x.sat_idx} := by simp [idsOf]
  rw [h1, Finset.union_comm, ← Finset.insert_eq]

theorem mem_idsOf (a : ℕ) (l : List DayObs) :
    a ∈ idsOf l ↔ ∃ x ∈ l, x.sat_idx = a := by
  simp [idsOf]

/-- Invariant of the inner per-day state `(day_obs, day_observed,
cumulative_observed)` relative to the observations `P` accumulated on
earlier days: the cumulative set collects exactly the ids of `P` and of the
current day's observations, the first-collect flags count it, the day set
collects the day's ids, and the day's observations carry the day tag. -/
def DayInvSt (P : List DayObs) (day : ℕ)
    (st : List DayObs × Finset ℕ × Finset ℕ) : Prop :=
  st.2.2 = idsOf (P ++ st.1) ∧
  (P ++ st.1).countP (fun x => x.is_first_collect) = (idsOf (P ++ st.1)).card ∧
  st.2.1 = idsOf st.1 ∧
  ∀ x ∈ st.1, x.day = day

theorem processObs_inv {P : List DayObs} {day : ℕ} {name : String}
    {st : List DayObs × Finset ℕ × Finset ℕ} (o : Pass)
    (h : DayInvSt P day st) : DayInvSt P day (processObs name day st o) := by
  obtain ⟨hcum, hcount, hds, hday⟩ := h
  unfold processObs
  refine ⟨?_, ?_, ?_, ?_⟩
  · rw [← List.append_assoc, idsOf_concat, hcum]
  · rw [← List.append_assoc, idsOf_concat]
    rw [List.countP_append, List.countP_cons, List.countP_nil]
    by_cases hmem : o.sat_idx ∈ st.2.2
    · have hins : insert o.sat_idx (idsOf (P ++ st.1)) = idsOf (P ++ st.1) :=
        Finset.insert_eq_self.mpr (hcum ▸ hmem)
      rw [hins, ← hcount, List.countP_append]
      simp [hmem]
    · rw [Finset.card_insert_of_not_mem (fun hc => hmem (hcum ▸ hc)), ← hcount,
        List.countP_append]
      simp [hmem]
  · rw [idsOf_concat, hds]
  · intro x hx
    rcases List.mem_append.mp hx with hx | hx
    · exact hday x hx
    · simp only [List.mem_singleton] at hx
      subst hx
      rfl

theorem foldl_processObs_inv {P : List DayObs} {day : ℕ} {name : String} :
    ∀ (l : List Pass) (st : List DayObs × Finset ℕ × Finset ℕ),
    DayInvSt P day st → DayInvSt P day (l.foldl (processObs name day) st)
  | [], _, h => h
  | o :: l, st, h => by
    simp only [List.foldl_cons]
    exact foldl_processObs_inv l _ (processObs_inv o h)

theorem foldl_dayStation_inv {P : List DayObs} {day : ℕ} {numSats : ℕ}
    {nightAt : GroundStation → ℚ → Bool}
    {propAt : GroundStation → ℕ → ℚ → Option (ℚ × Vec3)} {dstart : ℚ} :
    ∀ (stations : List GroundStation) (st : List DayObs × Finset ℕ × Finset ℕ),
    DayInvSt P day st →
    DayInvSt P day
      (stations.foldl (dayStationFold numSats nightAt propAt dstart day) st)
  | [], _, h => h
  | station :: stations, st, h => by
    simp only [List.foldl_cons]
    refine foldl_dayStation_inv stations _ ?_
    unfold dayStationFold
    exact foldl_processObs_inv _ _ h

theorem idsOf_subset {l l' : List DayObs} (h : ∀ x ∈ l, x ∈ l') :
    idsOf l ⊆ idsOf l' := by
  intro a ha
  rw [mem_idsOf] at ha ⊢
  obtain ⟨x, hx, hxa⟩ := ha
  exact ⟨x, h x hx, hxa⟩

/-- Invariant of the day loop of `run_multi_day_analysis` after the first
`d` days: the cumulative set is exactly the set of observed ids, the
first-collect flags count it, all observations are tagged with an earlier
day, and the `d` day records hold the observation count, distinct-id count
and cumulative distinct-id count of the corresponding day prefix. -/
def MDInv (d : ℕ) (acc : List DayObs × Finset ℕ × List DayRecord) : Prop :=
  acc.2.1 = idsOf acc.1 ∧
  acc.1.countP (fun x => x.is_first_collect) = (idsOf acc.1).card ∧
  (∀ x ∈ acc.1, x.day < d) ∧
  acc.2.2.length = d ∧
  ∀ i, i < acc.2.2.length →
    acc.2.2.getD i default =
      ⟨i + 1, (acc.1.filter (fun x => decide (x.day = i))).length,
        (idsOf (acc.1.filter (fun x => decide (x.day = i)))).card,
        (idsOf (acc.1.filter (fun x => decide (x.day ≤ i)))).card⟩

theorem multiDayStep_inv {numSats : ℕ} {nightAt : GroundStation → ℚ → Bool}
    {propAt : GroundStation → ℕ → ℚ → Option (ℚ × Vec3)}
    {stations : List GroundStation} {start_jd : ℚ} {d : ℕ}
    {acc : List DayObs × Finset ℕ × List DayRecord} (h : MDInv d acc) :
    MDInv (d + 1) (multiDayStep numSats nightAt propAt stations start_jd acc d) := by
  obtain ⟨hcum, hcount, hdays, hlen, hrecs⟩ := h
  have hst : DayInvSt acc.1 d ([], ∅, acc.2.1) := by
    refine ⟨by simpa using hcum, by simpa using hcount, by simp [idsOf], by simp⟩
  have hr := @foldl_dayStation_inv acc.1 d numSats nightAt propAt
    (start_jd + (d : ℚ)) stations _ hst
  obtain ⟨hcum', hcount', hds', hday'⟩ := hr
  unfold multiDayStep
  set R := stations.foldl
    (dayStationFold numSats nightAt propAt (start_jd + (d : ℚ)) d) ([], ∅, acc.2.1)
    with hR
  have hfilR_eq : ∀ i, i < d → R.1.filter (fun x => decide (x.day = i)) = [] := by
    intro i hi
    rw [List.filter_eq_nil_iff]
    intro x hx
    have := hday' x hx
    simp [this, Nat.ne_of_gt hi]
  have hfilR_le : ∀ i, i < d → R.1.filter (fun x => decide (x.day ≤ i)) = [] := by
    intro i hi
    rw [List.filter_eq_nil_iff]
    intro x hx
    have := hday' x hx
    simp only [this, decide_eq_true_eq]
    omega
  refine ⟨hcum', hcount', ?_, ?_, ?_⟩
  · intro x hx
    rcases List.mem_append.mp hx with hx | hx
    · exact Nat.lt_succ_of_lt (hdays x hx)
    · rw [hday' x hx]
      exact Nat.lt_succ_self d
  · simp [hlen]
  · intro i hi
    simp only [List.length_append, List.length_singleton, hlen] at hi
    rcases Nat.lt_succ_iff_lt_or_eq.mp hi with hi | hi
    · have hi' : i < acc.2.2.length := by rw [hlen]; exact hi
      have hgetl : (acc.2.2 ++ [(⟨d + 1, R.1.length, R.2.1.card, R.2.2.card⟩ : DayRecord)]).getD
          i default = acc.2.2.getD i default := by
        rw [List.getD_eq_getElem _ _ (by simp only [List.length_append]; omega),
          List.getD_eq_getElem _ _ hi', List.getElem_append_left hi']
      rw [hgetl, hrecs i hi']
      have h1 : (acc.1 ++ R.1).filter (fun x => decide (x.day = i)) =
          acc.1.filter (fun x => decide (x.day = i)) := by
        rw [List.filter_append, hfilR_eq i hi, List.append_nil]
      have h2 : (acc.1 ++ R.1).filter (fun x => decide (x.day ≤ i)) =
          acc.1.filter (fun x => decide (x.day ≤ i)) := by
        rw [List.filter_append, hfilR_le i hi, List.append_nil]
      rw [h1, h2]
    · subst hi
      have hgetr : (acc.2.2 ++ [(⟨i + 1, R.1.length, R.2.1.card, R.2.2.card⟩ : DayRecord)]).getD
          acc.2.2.length default = ⟨i + 1, R.1.length, R.2.1.card, R.2.2.card⟩ := by
        rw [List.getD_eq_getElem _ _
            (by simp only [List.length_append, List.length_singleton]; omega),
          List.getElem_append_right (le_refl _)]
        simp
      rw [hlen] at hgetr
      rw [hgetr]
      have hfa : acc.1.filter (fun x => decide (x.day = i)) = [] := by
        rw [List.filter_eq_nil_iff]
        intro x hx
        have := hdays x hx
        simp only [decide_eq_true_eq]
        omega
      have hfr : R.1.filter (fun x => decide (x.day = i)) = R.1 := by
        rw [List.filter_eq_self]
        intro x hx
        simp [hday' x hx]
      have h1 : (acc.1 ++ R.1).filter (fun x => decide (x.day = i)) = R.1 := by
        rw [List.filter_append, hfa, hfr, List.nil_append]
      have h2 : (acc.1 ++ R.1).filter (fun x => decide (x.day ≤ i)) = acc.1 ++ R.1 := by
        rw [List.filter_eq_self]
        intro x hx
        rcases List.mem_append.mp hx with hx | hx
        · have := hdays x hx
          simp only [decide_eq_true_eq]
          omega
        · simp [hday' x hx]
      rw [h1, h2, hds', hcum']

theorem multiDayLoop_inv (numSats : ℕ) (nightAt : GroundStation → ℚ → Bool)
    (propAt : GroundStation → ℕ → ℚ → Option (ℚ × Vec3))
    (stations : List GroundStation) (start_jd : ℚ) :
    ∀ n : ℕ, MDInv n ((List.range n).foldl
      (multiDayStep numSats nightAt propAt stations start_jd) ([], ∅, []))
  | 0 => by
    refine ⟨by simp [idsOf], by simp [idsOf], by simp, by simp, ?_⟩
    intro i hi
    simp at hi
  | (n + 1) => by
    have ih := multiDayLoop_inv numSats nightAt propAt stations start_jd n
    rw [List.range_succ, List.foldl_append]
    simp only [List.foldl_cons, List.foldl_nil]
    exact multiDayStep_inv ih

/-- C2 (amended): each Day Record's per-day `unique_today` field equals the
number of distinct object ids scheduled on that day — whether or not those
ids were already in the cumulative coverage set at the start of the day. -/
theorem C2_unique_today_counts_day_ids (numSats : ℕ)
    (nightAt : GroundStation → ℚ → Bool)
    (propAt : GroundStation → ℕ → ℚ → Option (ℚ × Vec3))
    (stations : List GroundStation) (start_jd : ℚ) (num_days : ℕ)
    (i : ℕ) (h : i < num_days) :
    ((run_multi_day_analysis numSats nightAt propAt stations start_jd
        num_days).1.daily_stats.getD i default).unique_today =
      (idsOf ((run_multi_day_analysis numSats nightAt propAt stations start_jd
        num_days).1.observations.filter (fun x => decide (x.day = i)))).card := by
  obtain ⟨h1, h2, h3, h4, h5⟩ :=
    multiDayLoop_inv numSats nightAt propAt stations start_jd num_days
  simp only [run_multi_day_analysis]
  rw [h5 i (by rw [h4]; exact h)]

theorem filter_le_monotone {l : List DayObs} {i j : ℕ} (hij : i ≤ j) :
    ∀ x ∈ l.filter (fun x => decide (x.day ≤ i)),
      x ∈ l.filter (fun x => decide (x.day ≤ j)) := by
  intro x hx
  rw [List.mem_filter] at hx ⊢
  refine ⟨hx.1, ?_⟩
  have := hx.2
  simp only [decide_eq_true_eq] at this ⊢
  omega

/-- C7: across a multi-day run the Day Records' cumulative counts are
non-decreasing in day index, and the final cumulative count (the last
record's value, also the run's `total_unique`) equals the number of
scheduled observations whose first-collect flag is true, which equals the
number of distinct object ids over all scheduled observations. -/
theorem C7_cumulative_monotone_total (numSats : ℕ)
    (nightAt : GroundStation → ℚ → Bool)
    (propAt : GroundStation → ℕ → ℚ → Option (ℚ × Vec3))
    (stations : List GroundStation) (start_jd : ℚ) (num_days : ℕ) :
    ((run_multi_day_analysis numSats nightAt propAt stations start_jd
        num_days).1.daily_stats.map DayRecord.cumulative).Sorted (· ≤ ·) ∧
    ((run_multi_day_analysis numSats nightAt propAt stations start_jd
        num_days).1.daily_stats.map DayRecord.cumulative).getLastD 0 =
      (run_multi_day_analysis numSats nightAt propAt stations start_jd
        num_days).1.total_unique ∧
    (run_multi_day_analysis numSats nightAt propAt stations start_jd
        num_days).1.total_unique =
      (run_multi_day_analysis numSats nightAt propAt stations start_jd
        num_days).1.observations.countP (fun x => x.is_first_collect) ∧
    (run_multi_day_analysis numSats nightAt propAt stations start_jd
        num_days).1.observations.countP (fun x => x.is_first_collect) =
      (idsOf (run_multi_day_analysis numSats nightAt propAt stations start_jd
        num_days).1.observations).card := by
  obtain ⟨h1, h2, h3, h4, h5⟩ :=
    multiDayLoop_inv numSats nightAt propAt stations start_jd num_days
  simp only [run_multi_day_analysis]
  refine ⟨?_, ?_, ?_, ?_⟩
  · refine List.pairwise_iff_get.mpr ?_
    intro i j hij
    rw [List.get_eq_getElem, List.get_eq_getElem, List.getElem_map, List.getElem_map]
    have hi : (i : ℕ) < ((List.range num_days).foldl
        (multiDayStep numSats nightAt propAt stations start_jd)
        ([], ∅, [])).2.2.length := by
      have := i.isLt
      simpa using this
    have hj : (j : ℕ) < ((List.range num_days).foldl
        (multiDayStep numSats nightAt propAt stations start_jd)
        ([], ∅, [])).2.2.length := by
      have := j.isLt
      simpa using this
    rw [← List.getD_eq_getElem _ default hi, ← List.getD_eq_getElem _ default hj,
      h5 _ hi, h5 _ hj]
    exact Finset.card_le_card (idsOf_subset (filter_le_monotone (le_of_lt hij)))
  · rcases num_days with _ | m
    · simp [idsOf]
    · obtain ⟨g1, g2, g3, g4, g5⟩ :=
        multiDayLoop_inv numSats nightAt propAt stations start_jd (m + 1)
      have hmlt : m < ((List.range (m + 1)).foldl
          (multiDayStep numSats nightAt propAt stations start_jd)
          ([], ∅, [])).2.2.length := by
        rw [g4]
        omega
      have hmapl : m < (((List.range (m + 1)).foldl
          (multiDayStep numSats nightAt propAt stations start_jd)
          ([], ∅, [])).2.2.map DayRecord.cumulative).length := by
        simpa using hmlt
      rw [List.getLastD_eq_getLast?, List.getLast?_eq_getElem?]
      have hlenm : (((List.range (m + 1)).foldl
          (multiDayStep numSats nightAt propAt stations start_jd)
          ([], ∅, [])).2.2.map DayRecord.cumulative).length - 1 = m := by
        simp [g4]
      rw [hlenm, List.getElem?_eq_getElem hmapl]
      simp only [Option.getD_some, List.getElem_map]
      rw [← List.getD_eq_getElem _ default hmlt, g5 m hmlt]
      have hfil : (((List.range (m + 1)).foldl
          (multiDayStep numSats nightAt propAt stations start_jd)
          ([], ∅, [])).1).filter (fun x => decide (x.day ≤ m)) =
          ((List.range (m + 1)).foldl
          (multiDayStep numSats nightAt propAt stations start_jd)
          ([], ∅, [])).1 := by
        rw [List.filter_eq_self]
        intro x hx
        have := g3 x hx
        simp only [decide_eq_true_eq]
        omega
      rw [hfil, ← g1]
  · rw [h1, h2]
  · exact h2

/-! Concrete evaluation lemmas for a constant always-visible satellite (the
scan state opens a pass at the first grid step and never updates it, so the
whole 720-step day scan has a closed form). -/

theorem constFold_closed (e : ℚ) (p : Vec3) (m : ℚ) (hm : m < e) (i : ℕ) (s w : ℚ) :
    ∀ n : ℕ, 1 ≤ n →
    (List.range n).foldl (passStep (fun _ => true) (fun _ => some (e, p)) m i s w)
      (⟨false, 0, 0, (0, 0, 0)⟩, []) = (⟨true, e, s, p⟩, [])
  | 0, h => absurd h (by omega)
  | 1, _ => by
    simp [List.range_succ, passStep, hm]
  | (n + 2), _ => by
    rw [List.range_succ, List.foldl_append,
      constFold_closed e p m hm i s w (n + 1) (by omega)]
    simp [passStep, hm]

theorem numSteps_24h : numSteps ((24 : ℚ) / 24) ((2 : ℚ) / 1440) = 720 := by
  unfold numSteps
  rw [show ((24 : ℚ) / 24) / ((2 : ℚ) / 1440) = 720 by norm_num]
  norm_num
  decide


theorem find_const (e : ℚ) (p : Vec3) (m : ℚ) (hm : m < e) (s : ℚ) :
    find_night_passes_fast 1 (fun _ => true) (fun _ _ => some (e, p)) s 24 2 m =
      [⟨0, s, e, p⟩] := by
  simp only [find_night_passes_fast, numSteps_24h]
  rw [show List.range 1 = [0] from rfl]
  simp only [List.foldl_cons, List.foldl_nil, List.nil_append]
  unfold findSat
  rw [constFold_closed e p m hm 0 s (2 / 1440) 720 (by omega)]
  simp [hm]

theorem schedule_single (q : Pass) (r : ℚ) : schedule_observations [q] r = [q] := by
  simp [schedule_observations, sortByElevDesc, insertByElev, schedGo]

theorem dayfold_const (cum : Finset ℕ) (day : ℕ) (dstart : ℚ) :
    [(⟨"S", 0, 0, 0, 0⟩ : GroundStation)].foldl
      (dayStationFold 1 (fun _ _ => true) (fun _ _ _ => some (20, (0, 0, 0)))
        dstart day)
      ([], ∅, cum) =
    ([⟨0, dstart, 20, (0, 0, 0), "S", decide (0 ∉ cum), day⟩], {0}, insert 0 cum) := by
  simp only [List.foldl_cons, List.foldl_nil, dayStationFold]
  rw [find_const 20 (0, 0, 0) MIN_ELEVATION_DEG
    (by norm_num [MIN_ELEVATION_DEG]) dstart]
  rw [schedule_single]
  simp [processObs]

theorem multiDayStep_const_day0 :
    multiDayStep 1 (fun _ _ => true) (fun _ _ _ => some (20, (0, 0, 0)))
      [⟨"S", 0, 0, 0, 0⟩] 0 ([], ∅, []) 0 =
    ([⟨0, 0, 20, (0, 0, 0), "S", true, 0⟩], {0}, [⟨1, 1, 1, 1⟩]) := by
  simp only [multiDayStep]
  rw [dayfold_const]
  decide

theorem multiDayStep_const_day1 :
    multiDayStep 1 (fun _ _ => true) (fun _ _ _ => some (20, (0, 0, 0)))
      [⟨"S", 0, 0, 0, 0⟩] 0
      ([⟨0, 0, 20, (0, 0, 0), "S", true, 0⟩], {0}, [⟨1, 1, 1, 1⟩]) 1 =
    ([⟨0, 0, 20, (0, 0, 0), "S", true, 0⟩, ⟨0, 1, 20, (0, 0, 0), "S", false, 1⟩],
      {0}, [⟨1, 1, 1, 1⟩, ⟨2, 1, 1, 1⟩]) := by
  simp only [multiDayStep]
  rw [dayfold_const]
  decide

theorem run_const_eval :
    run_multi_day_analysis 1 (fun _ _ => true) (fun _ _ _ => some (20, (0, 0, 0)))
      [⟨"S", 0, 0, 0, 0⟩] 0 2 =
    (⟨[⟨0, 0, 20, (0, 0, 0), "S", true, 0⟩, ⟨0, 1, 20, (0, 0, 0), "S", false, 1⟩],
      [⟨1, 1, 1, 1⟩, ⟨2, 1, 1, 1⟩], 1⟩, {0}) := by
  simp only [run_multi_day_analysis]
  rw [show List.range 2 = [0, 1] from rfl]
  simp only [List.foldl_cons, List.foldl_nil]
  rw [multiDayStep_const_day0, multiDayStep_const_day1]
  rfl

/-- C2 as stated is false: with one station, one always-visible satellite
and two days, the day-2 record's per-day field is 1 (the satellite is
scheduled again), but the count of objects newly observed that day — ids
scheduled that day that were not already in the cumulative coverage set at
the start of the day — is 0. -/
theorem C2_counterexample :
    ¬ (((run_multi_day_analysis 1 (fun _ _ => true)
        (fun _ _ _ => some (20, (0, 0, 0))) [⟨"S", 0, 0, 0, 0⟩] 0
        2).1.daily_stats.getD 1 default).unique_today =
      newlyObservedOnDay
        ((run_multi_day_analysis 1 (fun _ _ => true)
          (fun _ _ _ => some (20, (0, 0, 0))) [⟨"S", 0, 0, 0, 0⟩] 0
          2).1.observations) 1) := by
  rw [run_const_eval]
  decide

theorem C2_unique_today_counts_day_ids_witness :
    ((run_multi_day_analysis 1 (fun _ _ => true)
        (fun _ _ _ => some (20, (0, 0, 0))) [⟨"S", 0, 0, 0, 0⟩] 0
        2).1.daily_stats.getD 1 default).unique_today =
      (idsOf ((run_multi_day_analysis 1 (fun _ _ => true)
        (fun _ _ _ => some (20, (0, 0, 0))) [⟨"S", 0, 0, 0, 0⟩] 0
        2).1.observations.filter (fun x => decide (x.day = 1)))).card :=
  C2_unique_today_counts_day_ids 1 (fun _ _ => true)
    (fun _ _ _ => some (20, (0, 0, 0))) [⟨"S", 0, 0, 0, 0⟩] 0 2 1 (by decide)
